import Mathlib

/-!
Shallow embedding of the helgo place-pipeline scripts
(`scripts/build_places_osm.py`, `scripts/build_places_zurich_api.py`,
`scripts/enrich_places_wikidata.py`, `scripts/embed_places_qwen.py`,
`scripts/embed_places_openai_batch.py`), together with theorems about the
normalization-and-merge engine.

Modelling conventions:
* Python optional strings become `Option String`; a missing dict key is `none`.
  Python truthiness of such a value (`None` and `""` are falsy) is `truthy`.
* Python floats (coordinates, distances) become `ℚ`.
* Python dicts keyed by place id become ordered association lists
  `List (String × Place)` (Python dicts preserve insertion order).
* Python `set` values are modelled by duplicate-free lists; only membership
  matters to the scripts, iteration order of a Python set is unspecified.
* Case folding (`str.lower`) is modelled with ASCII case folding
  (`Char.toLower`); every string the rules compare against is ASCII.
-/

namespace Helgo

/-- Python truthiness of an optional string: `None` and `""` are falsy. -/
def truthy : Option String → Bool
  | none => false
  | some s => s ≠ ""

/-- Python `a or b` on optional strings: `a` when truthy, otherwise `b`. -/
def pyOr (a b : Option String) : Option String :=
  if truthy a then a else b

/-- `needle.isPrefixOf`-based substring search over character lists. -/
def contains_sub (needle : List Char) : List Char → Bool
  | [] => needle.isEmpty
  | c :: rest => needle.isPrefixOf (c :: rest) || contains_sub needle rest

/-- Python `needle in hay` (substring containment). -/
def str_contains (hay needle : String) : Bool :=
  contains_sub needle.toList hay.toList

/-- Python `str.lower`, ASCII case folding. -/
def lower (s : String) : String :=
  String.mk (s.toList.map Char.toLower)

/-- Keep the truthy entries of a list of optional strings
(Python `[part for part in parts if part]`). -/
def filter_truthy (parts : List (Option String)) : List String :=
  parts.filterMap fun o =>
    match o with
    | some s => if s = "" then none else some s
    | none => none

/-- `maps_url` (identical in both build scripts): deterministic map link from
the final coordinates. -/
def maps_url (lat lon : ℚ) : String :=
  "https://maps.google.com/?q=" ++ toString lat ++ "," ++ toString lon

/-- `ALLOWED_TAGS` (the identical literal appears in both build scripts);
the Python `set` is modelled as the list of its elements. -/
def ALLOWED_TAGS : List String :=
  ["cozy", "hip", "lake", "oldtown", "quiet", "touristy", "romantic", "cheap",
   "view", "photo", "park", "green", "narrow", "bridge", "city", "street",
   "mexican", "italian", "sushi", "burger", "asian", "swiss", "brunch",
   "coffee", "cocktails", "beer", "wine", "vegan", "historic"]

/-- Per-category default values (`CATEGORY_DEFAULTS` rows). -/
structure Defaults where
  indoorOutdoor : String
  durationMins : Nat
  bestTimeOfDay : String
deriving DecidableEq, Repr

end Helgo

namespace Helgo.Osm

/-! Model of `scripts/build_places_osm.py`. -/

/-- `CUISINE_MAP` as an association list. -/
def CUISINE_MAP : List (String × String) :=
  [("mexican", "mexican"), ("tex-mex", "mexican"), ("latin_american", "mexican"),
   ("latin-american", "mexican"), ("italian", "italian"), ("sushi", "sushi"),
   ("japanese", "sushi"), ("asian", "asian"), ("thai", "asian"),
   ("vietnamese", "asian"), ("chinese", "asian"), ("korean", "asian"),
   ("burger", "burger"), ("swiss", "swiss"), ("vegan", "vegan"),
   ("vegetarian", "vegan"), ("coffee", "coffee"), ("cafe", "coffee"),
   ("brunch", "brunch")]

/-- `CATEGORY_TAGS`. -/
def CATEGORY_TAGS : List (String × List String) :=
  [("restaurant", []), ("cafe", ["coffee"]), ("bar", ["beer", "cocktails"]),
   ("museum", ["historic"]), ("market", ["city"]), ("park", ["park", "green"]),
   ("viewpoint", ["view", "photo"]), ("walk", ["view", "photo", "street"])]

/-- `CATEGORY_DEFAULTS` of the OSM build script. -/
def CATEGORY_DEFAULTS : List (String × Defaults) :=
  [("restaurant", ⟨"indoor", 90, "night"⟩), ("cafe", ⟨"indoor", 60, "morning"⟩),
   ("bar", ⟨"indoor", 90, "night"⟩), ("museum", ⟨"indoor", 60, "afternoon"⟩),
   ("market", ⟨"indoor", 45, "morning"⟩), ("park", ⟨"outdoor", 75, "afternoon"⟩),
   ("viewpoint", ⟨"outdoor", 45, "sunset"⟩), ("walk", ⟨"outdoor", 75, "afternoon"⟩)]

/-- ASCII alphanumeric, the character class of the regex `[^a-zA-Z0-9]+`. -/
def is_alnum (c : Char) : Bool :=
  ('a' ≤ c && c ≤ 'z') || ('A' ≤ c && c ≤ 'Z') || ('0' ≤ c && c ≤ '9')

/-- `re.sub(r"[^a-zA-Z0-9]+", "-", ·)`: each maximal run of non-alphanumeric
characters becomes a single hyphen.  The flag records whether the previous
character already produced a hyphen. -/
def collapse_runs : Bool → List Char → List Char
  | _, [] => []
  | prevSep, c :: rest =>
    if is_alnum c then c :: collapse_runs false rest
    else if prevSep then collapse_runs prevSep rest
    else '-' :: collapse_runs true rest

/-- Python `str.strip()` (whitespace at both ends). -/
def strip_ws (l : List Char) : List Char :=
  ((l.dropWhile Char.isWhitespace).reverse.dropWhile Char.isWhitespace).reverse

/-- Python `str.strip("-")`. -/
def strip_dash (l : List Char) : List Char :=
  ((l.dropWhile (· == '-')).reverse.dropWhile (· == '-')).reverse

/-- `slugify`: strip, lower, collapse non-alphanumeric runs to hyphens, strip
hyphens, fall back to `"place"` when empty. -/
def slugify (text : String) : String :=
  let lowered := (strip_ws text.toList).map Char.toLower
  let slug := strip_dash (collapse_runs false lowered)
  if slug.isEmpty then "place" else String.mk slug

/-- Python `str.isdigit` restricted to ASCII digits (all inputs here are). -/
def is_digit_str (s : String) : Bool :=
  s ≠ "" && s.toList.all Char.isDigit

/-- The `tags` sub-dictionary of an Overpass element; every key the script
reads is a field, `none` meaning the key is absent. -/
structure OsmTags where
  amenity : Option String := none
  tourism : Option String := none
  leisure : Option String := none
  route : Option String := none
  name : Option String := none
  cuisine : Option String := none
  website : Option String := none
  contact_website : Option String := none
  phone : Option String := none
  contact_phone : Option String := none
  addr_street : Option String := none
  addr_housenumber : Option String := none
  addr_postcode : Option String := none
  addr_city : Option String := none
  description : Option String := none
  addr_suburb : Option String := none
  addr_neighbourhood : Option String := none
deriving DecidableEq, Repr

/-- `build_address` of the OSM script: keep truthy parts, join a numeric house
number onto the street with a space, join the rest with `", "`,
`None` when nothing is present. -/
def build_address (t : OsmTags) : Option String :=
  let cleaned := filter_truthy
    [t.addr_street, t.addr_housenumber, t.addr_postcode, t.addr_city]
  match cleaned with
  | [] => none
  | [a] => some a
  | a :: b :: rest =>
    if is_digit_str b then some (String.intercalate ", " ((a ++ " " ++ b) :: rest))
    else some (String.intercalate ", " (a :: b :: rest))

/-- `extract_cuisine_tags`: split the cuisine field on `;`/`,`, strip each
token, map it through `CUISINE_MAP`, keep the mapped values. -/
def extract_cuisine_tags (t : OsmTags) : List String :=
  let cuisine := t.cuisine.getD ""
  if cuisine = "" then []
  else
    let values := (lower cuisine).split (fun c => c == ';' || c == ',')
    values.foldl
      (fun mapped v =>
        let v := v.trim
        if v = "" then mapped
        else
          match CUISINE_MAP.lookup v with
          | some tag => mapped ++ [tag]
          | none => mapped)
      []

/-- `clamp_tags`: keep only allow-listed tags. -/
def clamp_tags (tags : List String) : List String :=
  tags.filter (fun tag => ALLOWED_TAGS.contains tag)

/-- A nested `center` pair (present on way/relation elements). -/
structure Center where
  lat : Option ℚ := none
  lon : Option ℚ := none
deriving DecidableEq, Repr

/-- An Overpass element. `lat`/`lon` are `some` exactly when the keys are
present on the element itself. -/
structure Element where
  type : String := "node"
  id : Nat := 0
  lat : Option ℚ := none
  lon : Option ℚ := none
  center : Option Center := none
  tags : OsmTags := {}
deriving DecidableEq, Repr

/-- `element_center`: a direct lat/lon pair, else the nested `center` pair,
else nothing. -/
def element_center (e : Element) : Option (ℚ × ℚ) :=
  match e.lat, e.lon with
  | some la, some lo => some (la, lo)
  | _, _ =>
    match e.center with
    | some c =>
      match c.lat, c.lon with
      | some la, some lo => some (la, lo)
      | _, _ => none
    | none => none

/-- A normalized place as produced by the OSM build script. -/
structure OsmPlace where
  id : String
  name : String
  category : String
  lat : ℚ
  lon : ℚ
  tags : List String
  address : Option String
  website : Option String
  phone : Option String
  mapsUrl : String
  indoorOutdoor : String
  durationMins : Nat
  bestTimeOfDay : String
  description : Option String
  area : Option String
deriving DecidableEq, Repr

/-- `build_place`: `None` when the element has no resolvable center or no
truthy name; otherwise the normalized place.  The Python code indexes
`CATEGORY_DEFAULTS[category]` directly; the `getD` fallback is unreachable
because the caller only passes the eight configured categories. -/
def build_place (e : Element) (category : String) : Option OsmPlace :=
  match element_center e with
  | none => none
  | some (lat, lon) =>
    let t := e.tags
    if truthy t.name = false then none
    else
      let name := t.name.getD ""
      let address := build_address t
      let cuisine_tags := extract_cuisine_tags t
      let combined_tags := clamp_tags ((CATEGORY_TAGS.lookup category).getD [] ++ cuisine_tags)
      let d := (CATEGORY_DEFAULTS.lookup category).getD ⟨"indoor", 0, "night"⟩
      some
        { id := "osm-" ++ e.type ++ "-" ++ toString e.id ++ "-" ++ slugify name
          name := name
          category := category
          lat := lat
          lon := lon
          tags := combined_tags
          address := address
          website := pyOr t.website t.contact_website
          phone := pyOr t.phone t.contact_phone
          mapsUrl := maps_url lat lon
          indoorOutdoor := d.indoorOutdoor
          durationMins := d.durationMins
          bestTimeOfDay := d.bestTimeOfDay
          description := t.description
          area := pyOr t.addr_suburb t.addr_neighbourhood }

/-- The category dispatch at the top of the `build_places` loop
(the `if`/`elif` chain over the element's tags). -/
def classify (t : OsmTags) : Option String :=
  if t.amenity == some "restaurant" then some "restaurant"
  else if t.amenity == some "cafe" then some "cafe"
  else if t.amenity == some "bar" || t.amenity == some "pub" then some "bar"
  else if t.tourism == some "museum" then some "museum"
  else if t.amenity == some "marketplace" then some "market"
  else if t.leisure == some "park" then some "park"
  else if t.tourism == some "viewpoint" then some "viewpoint"
  else if t.route == some "hiking" || t.route == some "foot"
       || t.route == some "walking" || t.route == some "trail" then some "walk"
  else none

/-- Loop state of `build_places`: accepted places, the `seen` id set, and the
per-category counters (`{category: 0 for category in CATEGORY_QUERIES}`;
only the eight configured categories are ever consulted). -/
structure BuildState where
  places : List OsmPlace
  seen : List String
  per_category : String → Nat

def init_state : BuildState := ⟨[], [], fun _ => 0⟩

/-- One iteration of the `build_places` loop. -/
def build_step (limit : Nat) (st : BuildState) (e : Element) : BuildState :=
  match classify e.tags with
  | none => st
  | some category =>
    if st.per_category category ≥ limit then st
    else
      match build_place e category with
      | none => st
      | some place =>
        if st.seen.contains place.id then st
        else
          { places := st.places ++ [place]
            seen := place.id :: st.seen
            per_category := fun c =>
              if c = category then st.per_category category + 1 else st.per_category c }

/-- `build_places`: fold the loop over the element stream. -/
def build_places (elements : List Element) (limit : Nat) : List OsmPlace :=
  (elements.foldl (build_step limit) init_state).places

end Helgo.Osm

namespace Helgo.Zur

/-! Model of `scripts/build_places_zurich_api.py`. -/

/-- `CATEGORY_DEFAULTS` of the Zurich open-data build script. -/
def CATEGORY_DEFAULTS : List (String × Defaults) :=
  [("restaurant", ⟨"indoor", 90, "night"⟩), ("cafe", ⟨"indoor", 60, "morning"⟩),
   ("bar", ⟨"indoor", 90, "night"⟩), ("museum", ⟨"indoor", 60, "afternoon"⟩),
   ("market", ⟨"indoor", 60, "morning"⟩), ("park", ⟨"outdoor", 75, "afternoon"⟩),
   ("viewpoint", ⟨"outdoor", 45, "sunset"⟩), ("walk", ⟨"outdoor", 75, "afternoon"⟩),
   ("activity", ⟨"mixed", 90, "afternoon"⟩), ("shopping", ⟨"indoor", 60, "afternoon"⟩),
   ("sport", ⟨"mixed", 90, "afternoon"⟩), ("wellness", ⟨"indoor", 90, "afternoon"⟩),
   ("accommodation", ⟨"indoor", 120, "night"⟩), ("event", ⟨"mixed", 120, "night"⟩),
   ("sightseeing", ⟨"outdoor", 60, "afternoon"⟩)]

/-- `has_any` inside `category_from_type`: some keyword occurs as a substring
of some (already lowercased) category label. -/
def has_any (lower_categories : List String) (values : List String) : Bool :=
  lower_categories.any (fun cat => values.any (fun value => str_contains cat value))

/-- `category_from_type`: the ordered keyword rules over the lowercased
category labels, then the controlled-vocabulary membership tests over the
`@type` codes, then the `"activity"` fallback. -/
def category_from_type (types : List String) (categories : List String) : String :=
  let lc := categories.map lower
  if has_any lc ["hotel", "accommodation", "hostel", "lodging"] then "accommodation"
  else if has_any lc ["event", "festival", "concert", "show", "theatre", "theater",
      "exhibition", "performance"] then "event"
  else if has_any lc ["restaurant", "gastronomy", "dinner", "lunch", "breakfast",
      "meal", "cuisine"] then "restaurant"
  else if has_any lc ["cafe", "coffee", "tea room", "coffee house"] then "cafe"
  else if has_any lc ["bar", "pub", "nightlife", "club", "disco", "cocktail",
      "lounge"] then "bar"
  else if has_any lc ["museum", "gallery"] then "museum"
  else if has_any lc ["market"] then "market"
  else if has_any lc ["park", "garden", "nature", "water", "lake", "river"] then "park"
  else if has_any lc ["view", "panorama", "lookout", "vantage"] then "viewpoint"
  else if has_any lc ["walk", "hiking", "trail", "route"] then "walk"
  else if has_any lc ["shopping", "shop", "boutique", "mall", "store"] then "shopping"
  else if has_any lc ["sport", "fitness", "gym", "swimming", "climbing", "ice rink",
      "tennis"] then "sport"
  else if has_any lc ["wellness", "spa", "sauna", "massage", "bath"] then "wellness"
  else if has_any lc ["sight", "sightseeing", "attraction", "landmark",
      "historic"] then "sightseeing"
  else if types.contains "restaurant" then "restaurant"
  else if types.contains "cafeorcoffeeshop" then "cafe"
  else if types.contains "barorpub" || types.contains "bar" then "bar"
  else if types.contains "museum" then "museum"
  else if types.contains "hotel" || types.contains "lodgingbusiness"
       || types.contains "hostel" then "accommodation"
  else "activity"

/-- `tags_from_categories`: keyword scan over each category label, appending
zero or more tags per label, then the allow-list filter. -/
def tags_from_categories (categories : List String) : List String :=
  let tags := categories.foldl
    (fun tags category =>
      let value := lower category
      let tags := if str_contains value "gastro" || str_contains value "restaurant" then
        tags ++ ["city"] else tags
      let tags := if str_contains value "mexic" || str_contains value "tex-mex"
        || str_contains value "latin" then tags ++ ["mexican"] else tags
      let tags := if str_contains value "ital" then tags ++ ["italian"] else tags
      let tags := if str_contains value "sushi" || str_contains value "japan" then
        tags ++ ["sushi"] else tags
      let tags := if str_contains value "asian" || str_contains value "thai"
        || str_contains value "korean" || str_contains value "chinese" then
        tags ++ ["asian"] else tags
      let tags := if str_contains value "burger" then tags ++ ["burger"] else tags
      let tags := if str_contains value "american" then tags ++ ["burger"] else tags
      let tags := if str_contains value "swiss" then tags ++ ["swiss"] else tags
      let tags := if str_contains value "vegan" || str_contains value "vegetarian" then
        tags ++ ["vegan"] else tags
      let tags := if str_contains value "coffee" || str_contains value "cafe" then
        tags ++ ["coffee"] else tags
      let tags := if str_contains value "brunch" then tags ++ ["brunch"] else tags
      let tags := if str_contains value "bar" || str_contains value "cocktail"
        || str_contains value "nightlife" then tags ++ ["cocktails"] else tags
      let tags := if str_contains value "wine" then tags ++ ["wine"] else tags
      let tags := if str_contains value "beer" || str_contains value "brew" then
        tags ++ ["beer"] else tags
      let tags := if str_contains value "park" || str_contains value "garden" then
        tags ++ ["park", "green"] else tags
      let tags := if str_contains value "view" || str_contains value "panorama" then
        tags ++ ["view", "photo"] else tags
      let tags := if str_contains value "historic" || str_contains value "heritage" then
        tags ++ ["historic"] else tags
      let tags := if str_contains value "quiet" then tags ++ ["quiet"] else tags
      let tags := if str_contains value "romantic" then tags ++ ["romantic"] else tags
      let tags := if str_contains value "lake" || str_contains value "river"
        || str_contains value "water" then tags ++ ["lake"] else tags
      let tags := if str_contains value "old town" || str_contains value "oldtown" then
        tags ++ ["oldtown"] else tags
      tags)
    []
  tags.filter (fun tag => ALLOWED_TAGS.contains tag)

/-- A localized text value: either a plain string, a `{en/de/default}`
dictionary, or absent (`text_value` returns `None` for any other shape). -/
inductive JVal where
  | str (s : String)
  | locdict (en de dflt : Option String)
  | missing
deriving DecidableEq, Repr

/-- `text_value`. -/
def text_value : JVal → Option String
  | .locdict en de dflt => pyOr (pyOr en de) dflt
  | .str s => some s
  | .missing => none

/-- An image value: a string URL, a dictionary with an optional string `url`
key, a list (only the head is inspected), or anything else. -/
inductive ImgVal where
  | str (s : String)
  | urldict (url : Option String)
  | list (items : List ImgVal)
  | missing
deriving Repr

/-- `extract_image_url`. -/
def extract_image_url : ImgVal → Option String
  | .str s => some s
  | .urldict url => url
  | .list [] => none
  | .list (x :: _) => extract_image_url x
  | .missing => none

/-- The `address` sub-dictionary of a Zurich API object. -/
structure ZAddr where
  streetAddress : Option String := none
  postalCode : Option String := none
  addressLocality : Option String := none
  url : Option String := none
  telephone : Option String := none
deriving DecidableEq, Repr

/-- `build_address` of the Zurich script: join the truthy parts with `", "`.
The script's non-dict branch (returning `None`) is unreachable from `main`,
which always passes a dict (`obj.get("address") or {}`); note the joined
string is `""` when no part is present. -/
def build_address (a : ZAddr) : String :=
  String.intercalate ", "
    (filter_truthy [a.streetAddress, a.postalCode, a.addressLocality])

/-- The `@type` value: a string, a list of strings, or anything else. -/
inductive AtType where
  | str (s : String)
  | list (vs : List String)
  | missing
deriving DecidableEq, Repr

/-- The `type_list` computation in `main`. -/
def type_list : AtType → List String
  | .str s => [lower s]
  | .list vs => vs.map lower
  | .missing => []

/-- A nested geo dictionary. -/
structure Geo where
  latitude : Option ℚ := none
  longitude : Option ℚ := none
deriving DecidableEq, Repr

/-- A raw Zurich API object, with one field per key `main` reads;
`category` holds the keys of the object's `category` dictionary in order. -/
structure RawObj where
  identifier : Option String := none
  idField : Option String := none
  geoCoordinates : Option Geo := none
  geo : Option Geo := none
  name : JVal := .missing
  headline : JVal := .missing
  title : Option String := none
  category : List String := []
  atType : AtType := .missing
  disambiguatingDescription : JVal := .missing
  description : JVal := .missing
  textTeaser : JVal := .missing
  titleTeaser : JVal := .missing
  address : Option ZAddr := none
  url : Option String := none
  telephone : Option String := none
  image : ImgVal := .missing
  photo : ImgVal := .missing

/-- The canonical place entity built by the Zurich script (and later read by
the enrichment and attach passes, which add `aiDescription`/`embedding`). -/
structure Place where
  id : String
  name : String
  category : String
  lat : ℚ
  lon : ℚ
  tags : List String
  address : Option String
  website : Option String
  phone : Option String
  photoUrl : Option String
  mapsUrl : String
  indoorOutdoor : String
  durationMins : Nat
  bestTimeOfDay : String
  description : Option String
  aiDescription : Option String := none
  embedding : Option (List ℚ) := none
deriving DecidableEq, Repr

/-- Python set union `{*a, *b}` of two tag lists, as a duplicate-free list
(a Python set's iteration order is unspecified; only membership matters). -/
def union_tags (a b : List String) : List String :=
  (a ++ b).dedup

/-- The merge branch of `main` for an already-present id: tag-set union, then
fill-only updates of `photoUrl`, `address`, `website`, `phone` (a field is
written only when the stored value is falsy and the incoming one truthy;
the incoming `address` is a plain string, falsy iff empty). -/
def merge_existing (existing : Place) (tags : List String) (photo_url : Option String)
    (address : String) (website phone : Option String) : Place :=
  let e := { existing with tags := union_tags existing.tags tags }
  let e := if !truthy e.photoUrl && truthy photo_url then
    { e with photoUrl := photo_url } else e
  let e := if !truthy e.address && address != "" then
    { e with address := some address } else e
  let e := if !truthy e.website && truthy website then
    { e with website := website } else e
  let e := if !truthy e.phone && truthy phone then
    { e with phone := phone } else e
  e

/-- Update the value stored at key `k` (Python mutates the dict entry in
place; keys are unique, insertion order is preserved). -/
def update_at (m : List (String × Place)) (k : String) (f : Place → Place) :
    List (String × Place) :=
  m.map (fun kv => if kv.1 = k then (kv.1, f kv.2) else kv)

/-- The resolved coordinate pair of an object:
`geo = obj.get("geoCoordinates") or obj.get("geo") or {}` followed by the
`latitude`/`longitude` lookups (a present geo dict is modelled as truthy). -/
def obj_latlon (obj : RawObj) : Option (ℚ × ℚ) :=
  let g := (match obj.geoCoordinates with
    | some g => some g
    | none => obj.geo).getD {}
  match g.latitude, g.longitude with
  | some lat, some lon => some (lat, lon)
  | _, _ => none

/-- The resolved display name of an object:
`text_value(obj.get("name")) or text_value(obj.get("headline")) or obj.get("title")`. -/
def obj_name (obj : RawObj) : Option String :=
  pyOr (pyOr (text_value obj.name) (text_value obj.headline)) obj.title

/-- `strip_html` applied to the description chain: `None` on falsy input,
otherwise the sanitized text.  The sanitizer body (HTML-tag removal plus
entity unescaping, a pure computation) is kept abstract as `strip_html`. -/
def strip_html_opt (strip_html : String → String) : Option String → Option String
  | none => none
  | some s => if s = "" then none else some (strip_html s)

/-- One iteration of the object loop in `main` over the id-keyed collection:
skip when the identifier, the coordinates or the name is missing, otherwise
insert a new place or merge into the existing one. -/
def process_obj (strip_html : String → String) (m : List (String × Place))
    (obj : RawObj) : List (String × Place) :=
  let identifier? := pyOr obj.identifier obj.idField
  if !truthy identifier? then m
  else
    let identifier := identifier?.getD ""
    match obj_latlon obj with
    | none => m
    | some (lat, lon) =>
      if !truthy (obj_name obj) then m
      else
        let name := (obj_name obj).getD ""
        let category_names := obj.category
        let tl := type_list obj.atType
        let place_category := category_from_type tl category_names
        let description := strip_html_opt strip_html
          (pyOr (pyOr (pyOr (text_value obj.disambiguatingDescription)
            (text_value obj.description)) (text_value obj.textTeaser))
            (text_value obj.titleTeaser))
        let address := build_address (obj.address.getD {})
        let website := if !truthy obj.url then
          (match obj.address with
           | some a => a.url
           | none => obj.url)
          else obj.url
        let phone := if !truthy obj.telephone then
          (match obj.address with
           | some a => a.telephone
           | none => obj.telephone)
          else obj.telephone
        let photo_url := pyOr (extract_image_url obj.image) (extract_image_url obj.photo)
        let tags := tags_from_categories category_names
        match m.lookup identifier with
        | none =>
          let defaults := (CATEGORY_DEFAULTS.lookup place_category).getD
            ⟨"mixed", 90, "afternoon"⟩
          m ++ [(identifier,
            { id := "zurich-" ++ identifier
              name := name
              category := place_category
              lat := lat
              lon := lon
              tags := tags
              address := some address
              website := website
              phone := phone
              photoUrl := photo_url
              mapsUrl := maps_url lat lon
              indoorOutdoor := defaults.indoorOutdoor
              durationMins := defaults.durationMins
              bestTimeOfDay := defaults.bestTimeOfDay
              description := description })]
        | some _ =>
          update_at m identifier
            (fun ex => merge_existing ex tags photo_url address website phone)

end Helgo.Zur

namespace Helgo.Wiki

/-! Model of `scripts/enrich_places_wikidata.py`.  The HTTP lookups
(`search_wikidata`, `get_entity`, `get_image_url`) and the transcendental
great-circle computation `haversine_km` are the script's I/O collaborators:
the candidate entities arrive already fetched, and the distance function and
image resolver are passed in as parameters. -/

/-- A fetched Wikidata entity: the first-statement string values of the
claims the script reads (`get_claim_value` for P856/P1329/P969/P6375/P18,
which yields `None` when the claim is absent or not a string), and the P625
coordinate pair (`get_coords`, whose `latitude`/`longitude` components may
each be missing). -/
structure Entity where
  p856 : Option String := none
  p1329 : Option String := none
  p969 : Option String := none
  p6375 : Option String := none
  p18 : Option String := none
  p625 : Option (Option ℚ × Option ℚ) := none
deriving DecidableEq, Repr

/-- One iteration of the `best_entity` loop: skip entities without a full
coordinate pair or beyond `max_km`, keep the nearest survivor. -/
def best_step (lat lon : ℚ) (hav : ℚ → ℚ → ℚ → ℚ → ℚ) (max_km : ℚ)
    (best : Option (Entity × ℚ)) (c : Entity) : Option (Entity × ℚ) :=
  match c.p625 with
  | none => best
  | some (la?, lo?) =>
    match la?, lo? with
    | some la, some lo =>
      let dist := hav lat lon la lo
      if dist > max_km then best
      else
        match best with
        | none => some (c, dist)
        | some (_, best_dist) => if dist < best_dist then some (c, dist) else best
    | _, _ => best

/-- `best_entity`: the nearest candidate within `max_km` of the place, if any
(`hav` is the script's `haversine_km`). -/
def best_entity (lat lon : ℚ) (candidates : List Entity)
    (hav : ℚ → ℚ → ℚ → ℚ → ℚ) (max_km : ℚ) : Option Entity :=
  (candidates.foldl (best_step lat lon hav max_km) none).map Prod.fst

/-- The claim-filling tail of `enrich_place` (the code after a best entity
has been found): fill only the currently-falsy fields among website, phone,
address, photoUrl, tracking the `updated` flag.  `image_url` is the script's
`get_image_url` collaborator. -/
def apply_claims (place : Zur.Place) (entity : Entity)
    (image_url : String → Option String) : Zur.Place × Bool :=
  let website := entity.p856
  let p1 := if !truthy place.website && truthy website then
    { place with website := website } else place
  let u1 := !truthy place.website && truthy website
  let phone := entity.p1329
  let p2 := if !truthy p1.phone && truthy phone then
    { p1 with phone := phone } else p1
  let u2 := u1 || (!truthy p1.phone && truthy phone)
  let address := pyOr entity.p969 entity.p6375
  let p3 := if !truthy p2.address && truthy address then
    { p2 with address := address } else p2
  let u3 := u2 || (!truthy p2.address && truthy address)
  let image := entity.p18
  let image_url? := if !truthy p3.photoUrl && truthy image then
    image_url (image.getD "") else none
  let p4 := if !truthy p3.photoUrl && truthy image && truthy image_url? then
    { p3 with photoUrl := image_url? } else p3
  let u4 := u3 || (!truthy p3.photoUrl && truthy image && truthy image_url?)
  (p4, u4)

/-- `enrich_place`: skip places with all four fields already present, skip
when there is no candidate or no candidate within the radius, otherwise fill
the missing fields from the best entity's claims.  The returned boolean is
the `updated` flag. -/
def enrich_place (place : Zur.Place) (candidates : List Entity)
    (hav : ℚ → ℚ → ℚ → ℚ → ℚ) (max_km : ℚ)
    (image_url : String → Option String) : Zur.Place × Bool :=
  let needs := !truthy place.photoUrl || !truthy place.address
    || !truthy place.website || !truthy place.phone
  if !needs then (place, false)
  else if candidates.isEmpty then (place, false)
  else
    match best_entity place.lat place.lon candidates hav max_km with
    | none => (place, false)
    | some entity => apply_claims place entity image_url

end Helgo.Wiki

namespace Helgo.EmbedQwen

/-! Model of `scripts/embed_places_qwen.py`.  The tokenizer/model call
(`embed_text`) is the I/O collaborator, passed in as `embed`. -/

/-- `build_description`: `" | "`-join of the truthy parts among name,
category, the comma-joined tags, and `aiDescription or description`. -/
def build_description (place : Zur.Place) : String :=
  let name := place.name
  let category := place.category
  let tags := String.intercalate ", " place.tags
  let desc := if truthy place.aiDescription then place.aiDescription.getD ""
    else place.description.getD ""
  String.intercalate " | "
    (([name, category, tags, desc]).filter (fun part => part ≠ ""))

/-- The main loop of the qwen embedding script: for every place, write both
`aiDescription` (the synthesized description) and `embedding`. -/
def attach (embed : String → List ℚ) (places : List Zur.Place) : List Zur.Place :=
  places.map (fun place =>
    let ai_description := build_description place
    let embedding := embed ai_description
    { place with aiDescription := some ai_description, embedding := some embedding })

end Helgo.EmbedQwen

namespace Helgo.EmbedBatch

/-! Model of the `merge` subcommand of `scripts/embed_places_openai_batch.py`. -/

/-- One element of a response body's `data` array. -/
structure EmbItem where
  embedding : Option (List ℚ) := none
deriving DecidableEq, Repr

/-- A response body; `extract_embedding_from_response` reads `data[0]`. -/
structure Body where
  data : List EmbItem := []
deriving DecidableEq, Repr

/-- One line of the downloaded results file: its `custom_id`, the body under
`response.body`, and the top-level `body` fallback. -/
structure ResultRecord where
  custom_id : Option String := none
  response_body : Option Body := none
  top_body : Option Body := none
deriving DecidableEq, Repr

/-- `extract_embedding_from_response`: the embedding of the first `data`
entry, `None` when `data` is empty. -/
def extract_embedding_from_response (b : Body) : Option (List ℚ) :=
  match b.data with
  | [] => none
  | x :: _ => x.embedding

/-- The body-selection chain of `merge_results`:
`record["response"]["body"]`, else `record["body"]`. -/
def record_body (r : ResultRecord) : Option Body :=
  match r.response_body with
  | some b => some b
  | none => r.top_body

/-- Write `emb` onto the first place (of the reversed list) whose id is
`cid`; `place_map` binds an id to the LAST list element carrying it, so the
caller reverses around this. -/
def set_embedding_rev (cid : String) (emb : List ℚ) :
    List Zur.Place → List Zur.Place
  | [] => []
  | p :: rest =>
    if p.id = cid then { p with embedding := some emb } :: rest
    else p :: set_embedding_rev cid emb rest

/-- Write `emb` onto the place `place_map` binds for `cid` (the last list
element with that id); no change when no place carries the id. -/
def set_embedding (places : List Zur.Place) (cid : String) (emb : List ℚ) :
    List Zur.Place :=
  (set_embedding_rev cid emb places.reverse).reverse

/-- One result line of `merge_results`: skip lines with a falsy `custom_id`,
no body, or a falsy (absent or empty) embedding; otherwise store the
embedding on the matching place. -/
def merge_step (places : List Zur.Place) (r : ResultRecord) : List Zur.Place :=
  if !truthy r.custom_id then places
  else
    match record_body r with
    | none => places
    | some body =>
      match extract_embedding_from_response body with
      | none => places
      | some emb =>
        if emb.isEmpty then places
        else set_embedding places (r.custom_id.getD "") emb

/-- `merge_results`: fold the result lines over the dataset. -/
def merge_results (places : List Zur.Place) (results : List ResultRecord) :
    List Zur.Place :=
  results.foldl merge_step places

end Helgo.EmbedBatch

namespace Helgo.Zur

/-! Spec-side view of the classifier (§4.1 of the design): ordered rule
lists evaluated first-match-wins, the controlled-vocabulary rules consulted
only when no keyword rule matched, with fallback `"activity"`.  These
definitions follow the spec's words and are compared against
`category_from_type`, which is translated from the source. -/

/-- The ordered keyword rules of `category_from_type`, most specific first. -/
def keyword_rules : List (List String × String) :=
  [(["hotel", "accommodation", "hostel", "lodging"], "accommodation"),
   (["event", "festival", "concert", "show", "theatre", "theater", "exhibition",
     "performance"], "event"),
   (["restaurant", "gastronomy", "dinner", "lunch", "breakfast", "meal",
     "cuisine"], "restaurant"),
   (["cafe", "coffee", "tea room", "coffee house"], "cafe"),
   (["bar", "pub", "nightlife", "club", "disco", "cocktail", "lounge"], "bar"),
   (["museum", "gallery"], "museum"),
   (["market"], "market"),
   (["park", "garden", "nature", "water", "lake", "river"], "park"),
   (["view", "panorama", "lookout", "vantage"], "viewpoint"),
   (["walk", "hiking", "trail", "route"], "walk"),
   (["shopping", "shop", "boutique", "mall", "store"], "shopping"),
   (["sport", "fitness", "gym", "swimming", "climbing", "ice rink", "tennis"], "sport"),
   (["wellness", "spa", "sauna", "massage", "bath"], "wellness"),
   (["sight", "sightseeing", "attraction", "landmark", "historic"], "sightseeing")]

/-- The controlled-vocabulary type-code rules of `category_from_type`. -/
def type_rules : List (List String × String) :=
  [(["restaurant"], "restaurant"),
   (["cafeorcoffeeshop"], "cafe"),
   (["barorpub", "bar"], "bar"),
   (["museum"], "museum"),
   (["hotel", "lodgingbusiness", "hostel"], "accommodation")]

/-- First-match-wins evaluation of ordered keyword rules (spec §4.1): the
first rule one of whose trigger keywords occurs as a substring of a
lowercased label wins. -/
def first_match (lc : List String) : List (List String × String) → Option String
  | [] => none
  | r :: rest => if has_any lc r.1 then some r.2 else first_match lc rest

/-- First-match-wins evaluation of the controlled-vocabulary rules (spec
§4.1): membership of one of the rule's known type codes in the record's
type list. -/
def first_code_match (types : List String) : List (List String × String) → Option String
  | [] => none
  | r :: rest =>
    if r.1.any (fun v => types.contains v) then some r.2
    else first_code_match types rest

/-- The keyword rule set, evaluated first-match-wins over the lowercased
category labels. -/
def first_keyword_match (categories : List String) : Option String :=
  first_match (categories.map lower) keyword_rules

/-- The type-code rule set, evaluated first-match-wins over the type list. -/
def first_type_match (types : List String) : Option String :=
  first_code_match types type_rules

/-- The fixed closed category taxonomy (spec §3). -/
def TAXONOMY : List String :=
  ["restaurant", "cafe", "bar", "museum", "market", "park", "viewpoint", "walk",
   "activity", "shopping", "sport", "wellness", "accommodation", "event",
   "sightseeing"]

theorem getD_first_match_cons (lc : List String) (r : List String × String)
    (rest : List (List String × String)) (d : String) :
    (first_match lc (r :: rest)).getD d
      = if has_any lc r.1 then r.2 else (first_match lc rest).getD d := by
  simp only [first_match]
  by_cases h : has_any lc r.1 = true
  · simp only [if_pos h, Option.getD_some]
  · simp only [if_neg h]

theorem getD_first_code_match_cons (types : List String) (r : List String × String)
    (rest : List (List String × String)) (d : String) :
    (first_code_match types (r :: rest)).getD d
      = if r.1.any (fun v => types.contains v) then r.2
        else (first_code_match types rest).getD d := by
  simp only [first_code_match]
  by_cases h : (r.1.any fun v => types.contains v) = true
  · simp only [if_pos h, Option.getD_some]
  · simp only [if_neg h]

/-- `category_from_type` is exactly first-match-wins over the ordered
keyword rules, then over the type-code rules, then the fallback. -/
theorem category_from_type_eq_first_match (types categories : List String) :
    category_from_type types categories
      = ((first_keyword_match categories).getD
          ((first_type_match types).getD "activity")) := by
  unfold category_from_type first_keyword_match first_type_match keyword_rules type_rules
  simp only [getD_first_match_cons, getD_first_code_match_cons,
    List.any_cons, List.any_nil, Bool.or_false, Bool.or_assoc]
  rfl

theorem first_match_getD_mem (lc : List String) (rules : List (List String × String))
    (d : String) (hr : ∀ r ∈ rules, r.2 ∈ TAXONOMY) (hd : d ∈ TAXONOMY) :
    (first_match lc rules).getD d ∈ TAXONOMY := by
  induction rules with
  | nil => simpa [first_match] using hd
  | cons r rest ih =>
    simp only [first_match]
    by_cases h : has_any lc r.1 = true
    · simp only [if_pos h, Option.getD_some]
      exact hr r (by simp)
    · simp only [if_neg h]
      exact ih (fun q hq => hr q (by simp [hq]))

theorem first_code_match_getD_mem (types : List String)
    (rules : List (List String × String)) (d : String)
    (hr : ∀ r ∈ rules, r.2 ∈ TAXONOMY) (hd : d ∈ TAXONOMY) :
    (first_code_match types rules).getD d ∈ TAXONOMY := by
  induction rules with
  | nil => simpa [first_code_match] using hd
  | cons r rest ih =>
    simp only [first_code_match]
    by_cases h : (r.1.any fun v => types.contains v) = true
    · simp only [if_pos h, Option.getD_some]
      exact hr r (by simp)
    · simp only [if_neg h]
      exact ih (fun q hq => hr q (by simp [hq]))

end Helgo.Zur

namespace Helgo

/-- C3: The category classifier is total and deterministic — for every list
of raw type signals it returns exactly one taxonomy value; the keyword rules
are evaluated in their fixed priority order with the first matching rule
winning, the controlled-vocabulary type-code rules are consulted only when
no keyword rule matched, and when both rule sets fail it returns the
fallback category `"activity"` rather than failing. -/
theorem category_classifier_total_first_match (types categories : List String) :
    Zur.category_from_type types categories
      = ((Zur.first_keyword_match categories).getD
          ((Zur.first_type_match types).getD "activity"))
    ∧ Zur.category_from_type types categories ∈ Zur.TAXONOMY := by
  refine ⟨Zur.category_from_type_eq_first_match types categories, ?_⟩
  rw [Zur.category_from_type_eq_first_match types categories]
  exact Zur.first_match_getD_mem _ _ _ (by decide)
    (Zur.first_code_match_getD_mem _ _ _ (by decide) (by decide))

end Helgo

namespace Helgo

theorem mem_clamp (l : List String) (t : String) (h : t ∈ Osm.clamp_tags l) :
    t ∈ ALLOWED_TAGS := by
  simp only [Osm.clamp_tags, List.mem_filter] at h
  simpa using h.2

theorem mem_tags_from_categories (cats : List String) (t : String)
    (h : t ∈ Zur.tags_from_categories cats) : t ∈ ALLOWED_TAGS := by
  simp only [Zur.tags_from_categories, List.mem_filter] at h
  simpa using h.2

theorem lookup_mem_snd (l : List (String × String)) (k v : String)
    (h : l.lookup k = some v) : v ∈ l.map Prod.snd := by
  induction l with
  | nil => simp [List.lookup] at h
  | cons a rest ih =>
    simp only [List.lookup] at h
    by_cases hk : (k == a.1) = true
    · simp [hk] at h
      simp [← h]
    · simp [hk] at h
      simp [ih h]

theorem mem_extract_cuisine (t : Osm.OsmTags) (x : String)
    (h : x ∈ Osm.extract_cuisine_tags t) : x ∈ ALLOWED_TAGS := by
  unfold Osm.extract_cuisine_tags at h
  by_cases hc : t.cuisine.getD "" = ""
  · simp [hc] at h
  · simp only [hc, if_false] at h
    revert h
    generalize ((lower (t.cuisine.getD "")).split fun c => c == ';' || c == ',') = values
    have aux : ∀ (vs : List String) (acc : List String),
        (∀ y ∈ acc, y ∈ ALLOWED_TAGS) →
        ∀ y ∈ vs.foldl (fun mapped v =>
          let v := v.trim
          if v = "" then mapped
          else match Osm.CUISINE_MAP.lookup v with
            | some tag => mapped ++ [tag]
            | none => mapped) acc, y ∈ ALLOWED_TAGS := by
      intro vs
      induction vs with
      | nil => intro acc hacc y hy; exact hacc y hy
      | cons v rest ih =>
        intro acc hacc y hy
        simp only [List.foldl_cons] at hy
        refine ih _ ?_ y hy
        by_cases hv : v.trim = ""
        · simpa [hv] using hacc
        · simp only [hv, if_false]
          cases hl : Osm.CUISINE_MAP.lookup v.trim with
          | none => simpa [hl] using hacc
          | some tag =>
            simp only [hl]
            intro z hz
            rcases List.mem_append.1 hz with hz | hz
            · exact hacc z hz
            · have hm : tag ∈ Osm.CUISINE_MAP.map Prod.snd := lookup_mem_snd _ _ _ hl
              have hsub : ∀ w ∈ Osm.CUISINE_MAP.map Prod.snd, w ∈ ALLOWED_TAGS := by decide
              simp only [List.mem_singleton] at hz
              exact hz ▸ hsub tag hm
    intro h
    exact aux values [] (by simp) x h

theorem build_place_tags_mem (e : Osm.Element) (c : String) (p : Osm.OsmPlace)
    (h : Osm.build_place e c = some p) : ∀ t ∈ p.tags, t ∈ ALLOWED_TAGS := by
  unfold Osm.build_place at h
  cases hc : Osm.element_center e with
  | none => simp [hc] at h
  | some q =>
    obtain ⟨la, lo⟩ := q
    rw [hc] at h
    by_cases hn : truthy e.tags.name = false
    · simp [hn] at h
    · simp only [hn, if_false] at h
      have hp : p = _ := (Option.some_inj.1 h).symm
      subst hp
      intro t ht
      exact mem_clamp _ _ ht

theorem union_tags_mem (a b : List String)
    (ha : ∀ t ∈ a, t ∈ ALLOWED_TAGS) (hb : ∀ t ∈ b, t ∈ ALLOWED_TAGS)
    (t : String) (h : t ∈ Zur.union_tags a b) : t ∈ ALLOWED_TAGS := by
  have hm := List.dedup_subset (l := a ++ b) h
  rcases List.mem_append.1 hm with h' | h'
  · exact ha t h'
  · exact hb t h'


/-- C2: For every input, every tag produced by tag extraction (the cuisine
token mapping, the category-label keyword scan with its allow-list filter,
the category-default tags combined and clamped inside `build_place`) and
every tag of a merged tag union of allow-listed tag lists is a member of the
fixed allow-list; tags outside the allow-list are silently dropped by the
filters, never an error. -/
theorem tags_within_allow_list :
    (∀ l t, t ∈ Osm.clamp_tags l → t ∈ ALLOWED_TAGS)
    ∧ (∀ cats t, t ∈ Zur.tags_from_categories cats → t ∈ ALLOWED_TAGS)
    ∧ (∀ ot t, t ∈ Osm.extract_cuisine_tags ot → t ∈ ALLOWED_TAGS)
    ∧ (∀ e c p, Osm.build_place e c = some p → ∀ t ∈ p.tags, t ∈ ALLOWED_TAGS)
    ∧ (∀ a b, (∀ t ∈ a, t ∈ ALLOWED_TAGS) → (∀ t ∈ b, t ∈ ALLOWED_TAGS) →
        ∀ t ∈ Zur.union_tags a b, t ∈ ALLOWED_TAGS) :=
  ⟨mem_clamp, mem_tags_from_categories, mem_extract_cuisine, build_place_tags_mem,
   union_tags_mem⟩

/-- Witness for C2 at concrete inputs: the clamped list drops the unknown
tag, and a concrete tag union stays inside the allow-list. -/
theorem tags_within_allow_list_witness :
    "coffee" ∈ ALLOWED_TAGS ∧ "vegan" ∈ ALLOWED_TAGS :=
  ⟨tags_within_allow_list.1 ["coffee", "unknowntag"] "coffee" (by decide),
   tags_within_allow_list.2.2.2.2 ["vegan"] ["coffee"] (by decide) (by decide)
     "vegan" (by decide)⟩

/-- C5 counterexample: a single category label that triggers both the
`"burger"` and the `"american"` keyword rules makes the tag extractor emit
the tag `"burger"` twice, so its output is not duplicate-free. -/
theorem tag_extractor_duplicate_tags :
    Zur.tags_from_categories ["american burger"] = ["burger", "burger"]
    ∧ ¬ (Zur.tags_from_categories ["american burger"]).Nodup := by
  decide

/-- C5 (amended): the tag extractors may emit duplicates (category-default
tags and cuisine tags are concatenated, and several keyword rules can append
the same tag); de-duplication happens only in the merge step's tag-set
union, whose result is always duplicate-free. -/
theorem merge_union_tags_nodup (a b : List String) :
    (Zur.union_tags a b).Nodup :=
  List.nodup_dedup (a ++ b)

/-- C7 counterexample: `slugify` never folds the accent of `é`; the regex
`[^a-zA-Z0-9]+` treats it as a separator, so `"Café & Bar!!"` does not
slugify to `"cafe-bar"`. -/
theorem slugify_cafe_bar_not_cafe_bar :
    Osm.slugify "Café & Bar!!" ≠ "cafe-bar" := by decide

/-- C7 (amended): slugifying `"Café & Bar!!"` yields exactly `"caf-bar"` —
the name is lower-cased, every maximal run of characters outside ASCII
alphanumerics (which includes the accented `é`) is collapsed to a single
hyphen, and no leading or trailing hyphen remains. -/
theorem slugify_cafe_bar_value :
    Osm.slugify "Café & Bar!!" = "caf-bar" := by decide

end Helgo

namespace Helgo

theorem merge_existing_keeps (ex : Zur.Place) (tags : List String)
    (pu : Option String) (addr : String) (web ph : Option String) :
    (truthy ex.address = true →
      (Zur.merge_existing ex tags pu addr web ph).address = ex.address)
    ∧ (truthy ex.website = true →
      (Zur.merge_existing ex tags pu addr web ph).website = ex.website)
    ∧ (truthy ex.phone = true →
      (Zur.merge_existing ex tags pu addr web ph).phone = ex.phone)
    ∧ (truthy ex.photoUrl = true →
      (Zur.merge_existing ex tags pu addr web ph).photoUrl = ex.photoUrl) := by
  unfold Zur.merge_existing
  dsimp only
  refine ⟨fun h => ?_, fun h => ?_, fun h => ?_, fun h => ?_⟩ <;>
    split_ifs <;> simp_all

theorem lookup_append_some (m l : List (String × Zur.Place)) (k : String)
    (p : Zur.Place) (h : m.lookup k = some p) : (m ++ l).lookup k = some p := by
  induction m with
  | nil => simp [List.lookup] at h
  | cons a rest ih =>
    simp only [List.lookup, List.cons_append] at h ⊢
    by_cases hk : (k == a.1) = true
    · simpa [hk] using h
    · simp only [hk] at h ⊢
      exact ih h

theorem update_at_cons (a : String × Zur.Place) (rest : List (String × Zur.Place))
    (k : String) (f : Zur.Place → Zur.Place) :
    Zur.update_at (a :: rest) k f
      = (if a.1 = k then (a.1, f a.2) else a) :: Zur.update_at rest k f := rfl

theorem lookup_update_self (m : List (String × Zur.Place)) (k : String)
    (f : Zur.Place → Zur.Place) :
    (Zur.update_at m k f).lookup k = (m.lookup k).map f := by
  induction m with
  | nil => rfl
  | cons a rest ih =>
    obtain ⟨a1, a2⟩ := a
    rw [update_at_cons]
    by_cases ha : (a1, a2).1 = k
    · rw [if_pos ha]
      simp only at ha
      subst ha
      simp [List.lookup]
    · rw [if_neg ha]
      simp only at ha
      have hbk : (k == a1) = false := by
        simp only [beq_eq_false_iff_ne, ne_eq]
        exact fun hc => ha hc.symm
      simp [List.lookup, hbk, ih]

theorem lookup_update_other (m : List (String × Zur.Place)) (k k' : String)
    (f : Zur.Place → Zur.Place) (hk : k ≠ k') :
    (Zur.update_at m k' f).lookup k = m.lookup k := by
  induction m with
  | nil => rfl
  | cons a rest ih =>
    obtain ⟨a1, a2⟩ := a
    rw [update_at_cons]
    by_cases ha : (a1, a2).1 = k'
    · rw [if_pos ha]
      simp only at ha
      subst ha
      have hbk : (k == a1) = false := by
        simp only [beq_eq_false_iff_ne, ne_eq]
        exact hk
      simp [List.lookup, hbk, ih]
    · rw [if_neg ha]
      simp only at ha
      by_cases hbk : (k == a1) = true
      · simp [List.lookup, hbk]
      · simp only [Bool.not_eq_true] at hbk
        simp [List.lookup, hbk, ih]

theorem process_obj_keeps_scalar (strip_html : String → String)
    (m : List (String × Zur.Place)) (obj : Zur.RawObj) (k : String) (p : Zur.Place)
    (h : m.lookup k = some p) :
    ∃ p', (Zur.process_obj strip_html m obj).lookup k = some p'
      ∧ (truthy p.address = true → p'.address = p.address)
      ∧ (truthy p.website = true → p'.website = p.website)
      ∧ (truthy p.phone = true → p'.phone = p.phone)
      ∧ (truthy p.photoUrl = true → p'.photoUrl = p.photoUrl) := by
  unfold Zur.process_obj
  by_cases hid : truthy (pyOr obj.identifier obj.idField) = true
  · simp only [hid, Bool.not_true, Bool.false_eq_true, if_false]
    cases hll : Zur.obj_latlon obj with
    | none => exact ⟨p, h, fun _ => rfl, fun _ => rfl, fun _ => rfl, fun _ => rfl⟩
    | some q =>
      obtain ⟨lat, lon⟩ := q
      by_cases hnm : truthy (Zur.obj_name obj) = true
      · simp only [hnm, Bool.not_true, Bool.false_eq_true, if_false]
        cases hlk : m.lookup ((pyOr obj.identifier obj.idField).getD "") with
        | none =>
          exact ⟨p, lookup_append_some m _ k p h,
            fun _ => rfl, fun _ => rfl, fun _ => rfl, fun _ => rfl⟩
        | some ex =>
          by_cases hk : k = (pyOr obj.identifier obj.idField).getD ""
          · subst hk
            rw [lookup_update_self, h]
            refine ⟨_, rfl, ?_, ?_, ?_, ?_⟩
            · exact fun ht => (merge_existing_keeps p _ _ _ _ _).1 ht
            · exact fun ht => (merge_existing_keeps p _ _ _ _ _).2.1 ht
            · exact fun ht => (merge_existing_keeps p _ _ _ _ _).2.2.1 ht
            · exact fun ht => (merge_existing_keeps p _ _ _ _ _).2.2.2 ht
          · rw [lookup_update_other _ _ _ _ hk, h]
            exact ⟨p, rfl, fun _ => rfl, fun _ => rfl, fun _ => rfl, fun _ => rfl⟩
      · simp only [hnm]
        exact ⟨p, by simpa using h, fun _ => rfl, fun _ => rfl, fun _ => rfl, fun _ => rfl⟩
  · simp only [hid]
    exact ⟨p, by simpa using h, fun _ => rfl, fun _ => rfl, fun _ => rfl, fun _ => rfl⟩


set_option maxHeartbeats 1600000 in
theorem apply_claims_keeps (pl : Zur.Place) (entity : Wiki.Entity)
    (image_url : String → Option String) :
    (truthy pl.address = true →
      (Wiki.apply_claims pl entity image_url).1.address = pl.address)
    ∧ (truthy pl.website = true →
      (Wiki.apply_claims pl entity image_url).1.website = pl.website)
    ∧ (truthy pl.phone = true →
      (Wiki.apply_claims pl entity image_url).1.phone = pl.phone)
    ∧ (truthy pl.photoUrl = true →
      (Wiki.apply_claims pl entity image_url).1.photoUrl = pl.photoUrl) := by
  unfold Wiki.apply_claims
  dsimp only
  refine ⟨fun h => ?_, fun h => ?_, fun h => ?_, fun h => ?_⟩ <;>
    split_ifs <;> simp_all

theorem enrich_place_keeps (pl : Zur.Place) (cands : List Wiki.Entity)
    (hav : ℚ → ℚ → ℚ → ℚ → ℚ) (max_km : ℚ) (image_url : String → Option String) :
    (truthy pl.address = true →
      (Wiki.enrich_place pl cands hav max_km image_url).1.address = pl.address)
    ∧ (truthy pl.website = true →
      (Wiki.enrich_place pl cands hav max_km image_url).1.website = pl.website)
    ∧ (truthy pl.phone = true →
      (Wiki.enrich_place pl cands hav max_km image_url).1.phone = pl.phone)
    ∧ (truthy pl.photoUrl = true →
      (Wiki.enrich_place pl cands hav max_km image_url).1.photoUrl = pl.photoUrl) := by
  unfold Wiki.enrich_place
  dsimp only
  split_ifs with h1 h2
  · exact ⟨fun _ => rfl, fun _ => rfl, fun _ => rfl, fun _ => rfl⟩
  · exact ⟨fun _ => rfl, fun _ => rfl, fun _ => rfl, fun _ => rfl⟩
  · cases hb : Wiki.best_entity pl.lat pl.lon cands hav max_km with
    | none => exact ⟨fun _ => rfl, fun _ => rfl, fun _ => rfl, fun _ => rfl⟩
    | some entity => exact apply_claims_keeps pl entity image_url

/-- A concrete stored place used by witnesses: website and address already
present, phone and photoUrl still missing. -/
def sample_place : Zur.Place :=
  { id := "zurich-z1", name := "Kronenhalle", category := "restaurant"
    lat := 47, lon := 8, tags := ["city"]
    address := some "Ramistrasse 4, 8001, Zurich"
    website := some "http://old", phone := none, photoUrl := none
    mapsUrl := "", indoorOutdoor := "indoor", durationMins := 90
    bestTimeOfDay := "night", description := none }

/-- A concrete second-pass record with the same identifier and a different,
non-empty website. -/
def sample_obj : Zur.RawObj :=
  { identifier := some "z1"
    geoCoordinates := some { latitude := some 47, longitude := some 8 }
    name := .str "Kronenhalle"
    url := some "http://new" }

/-- C1: For every place already in the keyed collection and every later
merge pass (`process_obj`) or enrichment pass (`enrich_place`), each scalar
field among address, website, phone and photoUrl that is non-empty before
the pass has the same value after the pass: a pass writes such a field only
when it is currently empty or absent. -/
theorem merge_and_enrich_fill_only :
    (∀ (s : String → String) (m : List (String × Zur.Place)) (obj : Zur.RawObj)
      (k : String) (p : Zur.Place), m.lookup k = some p →
      ∃ p', (Zur.process_obj s m obj).lookup k = some p'
        ∧ (truthy p.address = true → p'.address = p.address)
        ∧ (truthy p.website = true → p'.website = p.website)
        ∧ (truthy p.phone = true → p'.phone = p.phone)
        ∧ (truthy p.photoUrl = true → p'.photoUrl = p.photoUrl))
    ∧ (∀ (pl : Zur.Place) (cands : List Wiki.Entity) (hav : ℚ → ℚ → ℚ → ℚ → ℚ)
      (max_km : ℚ) (image_url : String → Option String),
      (truthy pl.address = true →
        (Wiki.enrich_place pl cands hav max_km image_url).1.address = pl.address)
      ∧ (truthy pl.website = true →
        (Wiki.enrich_place pl cands hav max_km image_url).1.website = pl.website)
      ∧ (truthy pl.phone = true →
        (Wiki.enrich_place pl cands hav max_km image_url).1.phone = pl.phone)
      ∧ (truthy pl.photoUrl = true →
        (Wiki.enrich_place pl cands hav max_km image_url).1.photoUrl = pl.photoUrl)) :=
  ⟨process_obj_keeps_scalar, enrich_place_keeps⟩

/-- Witness for C1: merging the concrete second-pass record carrying
`website = "http://new"` into the collection that already stores
`sample_place` with `website = "http://old"`. -/
theorem merge_and_enrich_fill_only_witness :
    ∃ p', (Zur.process_obj (fun s => s) [("z1", sample_place)] sample_obj).lookup "z1"
        = some p'
      ∧ (truthy sample_place.address = true → p'.address = sample_place.address)
      ∧ (truthy sample_place.website = true → p'.website = sample_place.website)
      ∧ (truthy sample_place.phone = true → p'.phone = sample_place.phone)
      ∧ (truthy sample_place.photoUrl = true → p'.photoUrl = sample_place.photoUrl) :=
  merge_and_enrich_fill_only.1 (fun s => s) [("z1", sample_place)] sample_obj
    "z1" sample_place rfl

end Helgo

namespace Helgo

theorem best_entity_none_of_far (lat lon : ℚ) (cands : List Wiki.Entity)
    (hav : ℚ → ℚ → ℚ → ℚ → ℚ) (max_km : ℚ)
    (h : ∀ c ∈ cands, ∀ la lo : ℚ, c.p625 = some (some la, some lo) →
      hav lat lon la lo > max_km) :
    Wiki.best_entity lat lon cands hav max_km = none := by
  unfold Wiki.best_entity
  suffices hs : cands.foldl (Wiki.best_step lat lon hav max_km) none = none by
    rw [hs]; rfl
  induction cands with
  | nil => rfl
  | cons c rest ih =>
    simp only [List.foldl_cons]
    have hstep : Wiki.best_step lat lon hav max_km none c = none := by
      unfold Wiki.best_step
      cases hp : c.p625 with
      | none => rfl
      | some q =>
        obtain ⟨la?, lo?⟩ := q
        cases la? with
        | none => rfl
        | some la =>
          cases lo? with
          | none => rfl
          | some lo =>
            have hfar := h c (by simp) la lo (by rw [hp])
            simp only [if_pos hfar]
    rw [hstep]
    exact ih (fun c' hc' la lo hp => h c' (by simp [hc']) la lo hp)

/-- C9: For every place and candidate set, if every candidate with a full
coordinate pair lies farther than the configured `max_km` radius from the
place under the great-circle distance function, the field-fill enrichment
returns the place unchanged and reports no update. -/
theorem enrich_no_candidate_within_radius (pl : Zur.Place) (cands : List Wiki.Entity)
    (hav : ℚ → ℚ → ℚ → ℚ → ℚ) (max_km : ℚ) (image_url : String → Option String)
    (h : ∀ c ∈ cands, ∀ la lo : ℚ, c.p625 = some (some la, some lo) →
      hav pl.lat pl.lon la lo > max_km) :
    Wiki.enrich_place pl cands hav max_km image_url = (pl, false) := by
  unfold Wiki.enrich_place
  dsimp only
  split_ifs with h1 h2
  · rfl
  · rfl
  · rw [best_entity_none_of_far pl.lat pl.lon cands hav max_km h]

/-- A concrete entity 5.0 km away from every place under the constant
distance function used in the witness. -/
def far_entity : Wiki.Entity :=
  { p856 := some "http://site", p625 := some (some 47, some 9) }

/-- A concrete place still needing enrichment (photoUrl missing). -/
def needy_place : Zur.Place :=
  { id := "zurich-n1", name := "N", category := "cafe"
    lat := 47, lon := 8, tags := []
    address := none, website := none, phone := none, photoUrl := none
    mapsUrl := "", indoorOutdoor := "indoor", durationMins := 60
    bestTimeOfDay := "morning", description := none }

/-- Witness for C9: one candidate 5.0 km away (constant distance function)
with `max_km = 2.0` fills no field and reports no update. -/
theorem enrich_no_candidate_within_radius_witness :
    Wiki.enrich_place needy_place [far_entity] (fun _ _ _ _ => 5) 2 (fun _ => none)
      = (needy_place, false) :=
  enrich_no_candidate_within_radius needy_place [far_entity]
    (fun _ _ _ _ => 5) 2 (fun _ => none)
    (by
      intro c hc la lo hp
      simp only [List.mem_singleton] at hc
      subst hc
      simp only [far_entity, Option.some.injEq, Prod.mk.injEq] at hp
      obtain ⟨h1, h2⟩ := hp
      subst h1
      subst h2
      decide)

end Helgo

namespace Helgo

theorem build_place_invalid_none (e : Osm.Element) (c : String)
    (h : Osm.element_center e = none ∨ truthy e.tags.name = false) :
    Osm.build_place e c = none := by
  unfold Osm.build_place
  rcases h with h | h
  · simp [h]
  · cases hc : Osm.element_center e with
    | none => rfl
    | some q =>
      obtain ⟨la, lo⟩ := q
      simp [h]

theorem build_step_invalid_id (limit : Nat) (st : Osm.BuildState) (e : Osm.Element)
    (h : Osm.element_center e = none ∨ truthy e.tags.name = false) :
    Osm.build_step limit st e = st := by
  unfold Osm.build_step
  cases hc : Osm.classify e.tags with
  | none => rfl
  | some category =>
    by_cases hcap : st.per_category category ≥ limit
    · simp [hcap]
    · simp only [hcap, if_false]
      rw [build_place_invalid_none e category h]

theorem build_places_skip (e : Osm.Element)
    (h : Osm.element_center e = none ∨ truthy e.tags.name = false)
    (limit : Nat) (l1 l2 : List Osm.Element) :
    Osm.build_places (l1 ++ e :: l2) limit = Osm.build_places (l1 ++ l2) limit := by
  unfold Osm.build_places
  rw [List.foldl_append, List.foldl_append, List.foldl_cons,
    build_step_invalid_id limit _ e h]

theorem process_obj_invalid_skip (s : String → String)
    (m : List (String × Zur.Place)) (obj : Zur.RawObj)
    (h : Zur.obj_latlon obj = none ∨ truthy (Zur.obj_name obj) = false) :
    Zur.process_obj s m obj = m := by
  unfold Zur.process_obj
  by_cases hid : truthy (pyOr obj.identifier obj.idField) = true
  · simp only [hid, Bool.not_true, Bool.false_eq_true, if_false]
    rcases h with h | h
    · simp [h]
    · cases hll : Zur.obj_latlon obj with
      | none => rfl
      | some q =>
        obtain ⟨la, lo⟩ := q
        simp [h]
  · simp [hid]

/-- C4: A raw record with no resolvable coordinate pair (neither a direct
lat/lon pair nor a nested center pair) or no non-empty name produces no
Place: the OSM normalizer returns `None`, the surrounding fold is unchanged
by the record (processing of the rest continues and the output collection
contains no entity derived from it), and the Zurich object loop likewise
leaves the collection untouched — all silently, with no error path. -/
theorem normalizer_drops_invalid_records :
    (∀ (e : Osm.Element) (c : String),
      Osm.element_center e = none ∨ truthy e.tags.name = false →
      Osm.build_place e c = none)
    ∧ (∀ e : Osm.Element,
      Osm.element_center e = none ∨ truthy e.tags.name = false →
      ∀ (limit : Nat) (l1 l2 : List Osm.Element),
        Osm.build_places (l1 ++ e :: l2) limit = Osm.build_places (l1 ++ l2) limit)
    ∧ (∀ (s : String → String) (m : List (String × Zur.Place)) (obj : Zur.RawObj),
      Zur.obj_latlon obj = none ∨ truthy (Zur.obj_name obj) = false →
      Zur.process_obj s m obj = m) :=
  ⟨build_place_invalid_none,
   fun e h limit l1 l2 => build_places_skip e h limit l1 l2,
   process_obj_invalid_skip⟩

/-- Witness for C4 at concrete records: an element with a name but no
coordinates, an element with a category but no name, and a Zurich object
with an identifier but no coordinates. -/
theorem normalizer_drops_invalid_records_witness :
    Osm.build_place { tags := { name := some "X" } } "cafe" = none
    ∧ Osm.build_places ([] ++ { tags := { amenity := some "cafe" } } :: []) 40
        = Osm.build_places ([] ++ []) 40
    ∧ Zur.process_obj (fun s => s) [] { identifier := some "z9" } = [] :=
  ⟨normalizer_drops_invalid_records.1 { tags := { name := some "X" } } "cafe"
     (Or.inl rfl),
   normalizer_drops_invalid_records.2.1 { tags := { amenity := some "cafe" } }
     (Or.inr rfl) 40 [] [],
   normalizer_drops_invalid_records.2.2 (fun s => s) [] { identifier := some "z9" }
     (Or.inl rfl)⟩

/-- The number of accepted places of category `c` (the quantity tracked by
the `per_category` counters). -/
def cat_count (l : List Osm.OsmPlace) (c : String) : Nat :=
  (l.filter (fun p => p.category == c)).length

theorem build_place_category (e : Osm.Element) (c : String) (p : Osm.OsmPlace)
    (h : Osm.build_place e c = some p) : p.category = c := by
  unfold Osm.build_place at h
  cases hc : Osm.element_center e with
  | none => simp [hc] at h
  | some q =>
    obtain ⟨la, lo⟩ := q
    rw [hc] at h
    by_cases hn : truthy e.tags.name = false
    · simp [hn] at h
    · simp only [hn, if_false] at h
      have hp : p = _ := (Option.some_inj.1 h).symm
      subst hp
      rfl

theorem build_step_inv (limit : Nat) (st : Osm.BuildState) (e : Osm.Element)
    (c : String)
    (hcount : cat_count st.places c = st.per_category c)
    (hle : st.per_category c ≤ limit) :
    cat_count (Osm.build_step limit st e).places c
        = (Osm.build_step limit st e).per_category c
    ∧ (Osm.build_step limit st e).per_category c ≤ limit := by
  unfold Osm.build_step
  cases hcl : Osm.classify e.tags with
  | none => exact ⟨hcount, hle⟩
  | some category =>
    by_cases hcap : st.per_category category ≥ limit
    · simp only [hcap, if_true]
      exact ⟨hcount, hle⟩
    · simp only [hcap, if_false]
      cases hbp : Osm.build_place e category with
      | none => exact ⟨hcount, hle⟩
      | some place =>
        by_cases hseen : st.seen.contains place.id = true
        · simp only [hseen, if_true]
          exact ⟨hcount, hle⟩
        · simp only [hseen, Bool.false_eq_true, if_false]
          have hcat : place.category = category := build_place_category e category place hbp
          simp only [cat_count] at hcount
          by_cases hcc : c = category
          · subst hcc
            constructor
            · simp [cat_count, List.filter_append, hcat, hcount]
            · simp only [eq_self_iff_true, if_true]
              omega
          · have hne : (place.category == c) = false := by
              simp only [hcat, beq_eq_false_iff_ne, ne_eq]
              exact fun hx => hcc hx.symm
            constructor
            · simp [cat_count, List.filter_append, hne, hcount, hcc]
            · simp only [if_neg hcc]
              exact hle

theorem build_fold_inv (limit : Nat) (elements : List Osm.Element) :
    ∀ st : Osm.BuildState,
    (∀ c, cat_count st.places c = st.per_category c ∧ st.per_category c ≤ limit) →
    ∀ c, cat_count ((elements.foldl (Osm.build_step limit) st).places) c
        = (elements.foldl (Osm.build_step limit) st).per_category c
      ∧ (elements.foldl (Osm.build_step limit) st).per_category c ≤ limit := by
  induction elements with
  | nil => intro st h c; exact h c
  | cons e rest ih =>
    intro st h c
    simp only [List.foldl_cons]
    exact ih _ (fun c' => build_step_inv limit st e c' (h c').1 (h c').2) c

/-- C10: For every element stream and per-category limit, the first-pass
build emits at most `limit` places of each category; and once a category's
counter has reached the limit, the loop step leaves the state completely
unchanged for any further element classified into that category — the skip
happens before `build_place` normalization is attempted. -/
theorem per_category_cap :
    (∀ (elements : List Osm.Element) (limit : Nat) (c : String),
      cat_count (Osm.build_places elements limit) c ≤ limit)
    ∧ (∀ (limit : Nat) (st : Osm.BuildState) (e : Osm.Element) (c : String),
      Osm.classify e.tags = some c → st.per_category c ≥ limit →
      Osm.build_step limit st e = st) := by
  constructor
  · intro elements limit c
    have h := build_fold_inv limit elements Osm.init_state
      (fun c' => ⟨rfl, Nat.zero_le _⟩) c
    unfold Osm.build_places
    rw [h.1]
    exact h.2
  · intro limit st e c hcl hcap
    unfold Osm.build_step
    rw [hcl]
    simp [hcap]

/-- Witness for C10: with a limit of 0 no cafe is emitted, and a step on a
state whose cafe counter is at the limit 1 is the identity. -/
theorem per_category_cap_witness :
    cat_count (Osm.build_places [{ tags := { amenity := some "cafe" } }] 0) "cafe" ≤ 0
    ∧ Osm.build_step 1 ⟨[], [], fun _ => 1⟩ { tags := { amenity := some "cafe" } }
        = ⟨[], [], fun _ => 1⟩ :=
  ⟨per_category_cap.1 [{ tags := { amenity := some "cafe" } }] 0 "cafe",
   per_category_cap.2 1 ⟨[], [], fun _ => 1⟩ { tags := { amenity := some "cafe" } }
     "cafe" rfl (by decide)⟩

end Helgo

namespace Helgo

/-- Forget the `embedding` field (used to state that a pass touches nothing
else). -/
def erase_embedding (p : Zur.Place) : Zur.Place :=
  { p with embedding := none }

theorem set_embedding_rev_frame (cid : String) (emb : List ℚ)
    (l : List Zur.Place) :
    (EmbedBatch.set_embedding_rev cid emb l).map erase_embedding
      = l.map erase_embedding := by
  induction l with
  | nil => rfl
  | cons p rest ih =>
    simp only [EmbedBatch.set_embedding_rev]
    by_cases hp : p.id = cid
    · simp only [if_pos hp, List.map_cons]
      rfl
    · simp only [if_neg hp, List.map_cons, ih]

theorem set_embedding_frame (places : List Zur.Place) (cid : String)
    (emb : List ℚ) :
    (EmbedBatch.set_embedding places cid emb).map erase_embedding
      = places.map erase_embedding := by
  unfold EmbedBatch.set_embedding
  rw [List.map_reverse, set_embedding_rev_frame, ← List.map_reverse,
    List.reverse_reverse]

theorem merge_step_frame (places : List Zur.Place) (r : EmbedBatch.ResultRecord) :
    (EmbedBatch.merge_step places r).map erase_embedding
      = places.map erase_embedding := by
  unfold EmbedBatch.merge_step
  by_cases hid : truthy r.custom_id = true
  · simp only [hid, Bool.not_true, Bool.false_eq_true, if_false]
    cases hb : EmbedBatch.record_body r with
    | none => rfl
    | some body =>
      dsimp only
      cases he : EmbedBatch.extract_embedding_from_response body with
      | none => rfl
      | some emb =>
        dsimp only
        by_cases hke : emb.isEmpty = true
        · simp [hke]
        · simp only [hke, Bool.false_eq_true, if_false]
          exact set_embedding_frame places _ emb
  · simp [hid]

/-- C6 (amended): the batch-embedding merge pass writes only the
`embedding` field — erasing the embeddings of its output gives back the
input list unchanged, so `aiDescription` and every other field of every
place is untouched. -/
theorem batch_embedding_merge_only_embedding (places : List Zur.Place)
    (results : List EmbedBatch.ResultRecord) :
    (EmbedBatch.merge_results places results).map erase_embedding
      = places.map erase_embedding := by
  unfold EmbedBatch.merge_results
  induction results generalizing places with
  | nil => rfl
  | cons r rest ih =>
    simp only [List.foldl_cons]
    rw [ih (EmbedBatch.merge_step places r), merge_step_frame]

/-- C6 counterexample: the local qwen embedding pipeline does not leave
`aiDescription` unchanged — it overwrites it with the synthesized
description it embeds (here `sample_place.aiDescription` is `none` and
becomes the `" | "`-joined summary). -/
theorem qwen_embedding_pass_writes_aiDescription :
    (EmbedQwen.attach (fun _ => []) [sample_place]).map (fun p => p.aiDescription)
      = [some "Kronenhalle | restaurant | city"]
    ∧ [some "Kronenhalle | restaurant | city"] ≠ [sample_place.aiDescription] := by
  constructor
  · decide
  · decide

theorem filter_truthy_nil (parts : List (Option String))
    (h : ∀ o ∈ parts, truthy o = false) : filter_truthy parts = [] := by
  induction parts with
  | nil => rfl
  | cons o rest ih =>
    simp only [filter_truthy, List.filterMap_cons]
    cases o with
    | none => exact ih (fun o' ho' => h o' (by simp [ho']))
    | some s =>
      have hs := h (some s) (by simp)
      simp only [truthy] at hs
      have : s = "" := by simpa using hs
      simp only [this, if_pos rfl]
      exact ih (fun o' ho' => h o' (by simp [ho']))

/-- C8 (amended): when no address sub-field is present (truthy), the OSM
normalizer's `build_address` yields no address at all (`None`), while the
Zurich normalizer's `build_address` yields the empty string (which every
later fill-only merge treats as absent). -/
theorem build_address_no_parts :
    (∀ t : Osm.OsmTags,
      truthy t.addr_street = false → truthy t.addr_housenumber = false →
      truthy t.addr_postcode = false → truthy t.addr_city = false →
      Osm.build_address t = none)
    ∧ (∀ a : Zur.ZAddr,
      truthy a.streetAddress = false → truthy a.postalCode = false →
      truthy a.addressLocality = false → Zur.build_address a = "") := by
  constructor
  · intro t h1 h2 h3 h4
    unfold Osm.build_address
    rw [filter_truthy_nil]
    intro o ho
    simp only [List.mem_cons, List.mem_singleton] at ho
    rcases ho with rfl | rfl | rfl | (rfl | h0)
    · exact h1
    · exact h2
    · exact h3
    · exact h4
    · exact absurd h0 (List.not_mem_nil o)
  · intro a h1 h2 h3
    unfold Zur.build_address
    rw [filter_truthy_nil]
    · rfl
    · intro o ho
      simp only [List.mem_cons, List.mem_singleton] at ho
      rcases ho with rfl | rfl | (rfl | h0)
      · exact h1
      · exact h2
      · exact h3
      · exact absurd h0 (List.not_mem_nil o)

/-- Witness for C8 (amended) at the all-absent records. -/
theorem build_address_no_parts_witness :
    Osm.build_address {} = none ∧ Zur.build_address {} = "" :=
  ⟨build_address_no_parts.1 {} rfl rfl rfl rfl,
   build_address_no_parts.2 {} rfl rfl rfl⟩

/-- C8 counterexample: a Zurich record with no address dictionary at all is
normalized to a place whose `address` is the empty string, not an absent
field. -/
theorem zurich_address_empty_string :
    (Zur.process_obj (fun s => s) []
        { identifier := some "p1"
          geoCoordinates := some { latitude := some 1, longitude := some 2 }
          name := .str "X" }).map (fun kv => kv.2.address)
      = [some ""] := by
  decide

end Helgo
